import Mathlib

/-!
Verification of the checkbox-style-menu editor extension.

The development shallowly embeds the functions of the plugin source that the
specification talks about: the checkbox-line regular expressions and the
single-character style replacement, the menu/overlay lifecycle state, the
long-press gesture state machine, the settings loader with its validators, and
the Tasks-compatibility decision function.  Strings are lists of characters,
DOM element references are numeric ids, timer handles are booleans
(pending or not), and the persisted-settings JSON is a small inductive of
JavaScript values.
-/

namespace CheckboxStyleMenu

/-- Characters matched by the JavaScript regexp class backslash-s
(space, tab, LF, VT, FF, CR, NBSP, and the Unicode space and line separators). -/
def isJsWs (c : Char) : Bool :=
  c.toNat = 9 || c.toNat = 10 || c.toNat = 11 || c.toNat = 12 || c.toNat = 13 ||
  c.toNat = 32 || c.toNat = 160 || c.toNat = 0x1680 ||
  (0x2000 ≤ c.toNat && c.toNat ≤ 0x200a) ||
  c.toNat = 0x2028 || c.toNat = 0x2029 || c.toNat = 0x202f || c.toNat = 0x205f ||
  c.toNat = 0x3000 || c.toNat = 0xfeff

/-- JavaScript line terminators: the dot of a regexp without the dotAll flag
matches every character except these (LF, CR, LS, PS). -/
def isLineTermChar (c : Char) : Bool :=
  c.toNat = 10 || c.toNat = 13 || c.toNat = 0x2028 || c.toNat = 0x2029

/-- Characters matched by the JavaScript regexp class backslash-d (0-9). -/
def isDigitChar (c : Char) : Bool :=
  48 ≤ c.toNat && c.toNat ≤ 57

/-- The list-marker alternative of both checkbox regexes of main.ts,
the group matching a dash or digits followed by a dot.
On success it returns the number of characters consumed and the rest of the
input.  The two branches are decided by the first character (a dash is not a
digit), and the greedy digit run never backtracks because the dot that must
follow it is not a digit, so this deterministic reading is exact. -/
def matchListMarker (l : List Char) : Option (Nat × List Char) :=
  match l with
  | [] => none
  | c :: rest =>
    if c = '-' then some (1, rest)
    else if isDigitChar c then
      match l.dropWhile isDigitChar with
      | '.' :: r2 => some ((l.takeWhile isDigitChar).length + 1, r2)
      | _ => none
    else none

/-- CHECKBOX_REGEX.test of main.ts: the anchored regex
caret ws-star (dash or digits dot) ws-star bracket dot bracket ws-star dot-star dollar.
The leading and inner ws-star are deterministic because neither a marker
character nor the opening bracket is whitespace; the trailing part matches
exactly when the suffix left after dropping a maximal whitespace prefix
contains no line terminator (whitespace characters are themselves acceptable
to the dot except the line terminators, which dropping the prefix removes
when possible). -/
def isCheckboxLine (line : List Char) : Bool :=
  match matchListMarker (line.dropWhile isJsWs) with
  | none => false
  | some (_, r1) =>
    match r1.dropWhile isJsWs with
    | '[' :: c :: ']' :: t =>
      !isLineTermChar c && (t.dropWhile isJsWs).all (fun d => !isLineTermChar d)
    | _ => false

/-- One attempt of CHECKBOX_SYMBOL_REGEX at a fixed start position: the regex
(dash or digits dot) ws-star bracket dot bracket.  On success the result is
the offset, from this start, of the captured status character; since neither
the marker nor the whitespace run can contain an opening bracket, this offset
equals index-of-bracket-in-match plus one, exactly the startIndex computation
of applyCheckboxStyle. -/
def matchSymbolAt (l : List Char) : Option Nat :=
  match matchListMarker l with
  | none => none
  | some (k, r1) =>
    match r1.dropWhile isJsWs with
    | '[' :: c :: ']' :: _ =>
      if isLineTermChar c then none
      else some (k + (r1.takeWhile isJsWs).length + 1)
    | _ => none

/-- Leftmost search of CHECKBOX_SYMBOL_REGEX over the line, as the JavaScript
match method performs it: start positions are tried left to right.  Returns
the absolute offset of the status character of the first match. -/
def searchSymbolIndex : List Char → Option Nat
  | [] => none
  | l@(_ :: rest) =>
    match matchSymbolAt l with
    | some off => some off
    | none => (searchSymbolIndex rest).map (· + 1)

/-- A single text replacement dispatched to the editor:
replace the range efrom..eto by the character insert. -/
structure DocEdit where
  efrom : Nat
  eto : Nat
  insert : Char
deriving DecidableEq

/-- applyCheckboxStyle of main.ts on the line holding the menu position.
lineFrom is the document offset of the line start (line.from).  The function
revalidates the line against CHECKBOX_REGEX, finds the status-symbol offset
via CHECKBOX_SYMBOL_REGEX, and dispatches a one-character replacement there;
if either regex fails it returns without dispatching anything. -/
def applyCheckboxStyle (lineFrom : Nat) (lineText : List Char) (symbol : Char) :
    Option DocEdit :=
  if isCheckboxLine lineText then
    match searchSymbolIndex lineText with
    | some idx => some ⟨lineFrom + idx, lineFrom + idx + 1, symbol⟩
    | none => none
  else none

/-- Effect of a dispatched replacement on the text of the line it falls in. -/
def replaceInLine (lineText : List Char) (lineFrom : Nat) (e : DocEdit) :
    List Char :=
  lineText.take (e.efrom - lineFrom) ++ e.insert :: lineText.drop (e.eto - lineFrom)

/-- What a selection in the menu produces: the optional dispatched edit and
whether the menu was closed. -/
structure SelectionOutcome where
  edit : Option DocEdit
  menuClosed : Bool
deriving DecidableEq

/-- handleStyleSelection of main.ts, with the chosen symbol already resolved
from the pressed list item: it calls applyCheckboxStyle and then
unconditionally hides the menu (the haptic pulse is omitted). -/
def handleStyleSelection (lineFrom : Nat) (lineText : List Char) (symbol : Char) :
    SelectionOutcome :=
  { edit := applyCheckboxStyle lineFrom lineText symbol, menuClosed := true }

/-- The list-marker language of the checkbox regexes, stated structurally:
a single dash, or a nonempty digit run followed by a dot. -/
def IsListMarker (m : List Char) : Prop :=
  m = ['-'] ∨ ∃ ds, ds ≠ [] ∧ (∀ c ∈ ds, isDigitChar c = true) ∧ m = ds ++ ['.']

/-- Structural decomposition of a line matched by CHECKBOX_REGEX: leading
whitespace, a list marker, whitespace, the bracketed status character, and a
tail whose maximal-whitespace-stripped suffix holds no line terminator. -/
def CheckboxShape (line w1 m w2 : List Char) (c : Char) (t : List Char) : Prop :=
  line = w1 ++ m ++ w2 ++ '[' :: c :: ']' :: t ∧
  (∀ a ∈ w1, isJsWs a = true) ∧
  IsListMarker m ∧
  (∀ a ∈ w2, isJsWs a = true) ∧
  isLineTermChar c = false ∧
  (∀ a ∈ t.dropWhile isJsWs, isLineTermChar a = false)

/-- A line matches the checkbox pattern when some structural decomposition
exists. -/
def MatchesCheckboxPattern (line : List Char) : Prop :=
  ∃ w1 m w2 c t, CheckboxShape line w1 m w2 c t

/-- isBasicToggleState of the compatibility module: space, x or X. -/
def isBasicToggleState (symbol : Char) : Bool :=
  symbol == ' ' || symbol == 'x' || symbol == 'X'

/-- shouldUseClickForToggle of the compatibility module: decides between a
simulated native click (true) and a direct text change (false). -/
def shouldUseClickForToggle (currentSymbol targetSymbol : Char)
    (tasksCompatibilityEnabled : Bool) : Bool :=
  if !tasksCompatibilityEnabled then false
  else if currentSymbol = targetSymbol then false
  else if !isBasicToggleState targetSymbol then false
  else if targetSymbol = 'x' ∨ targetSymbol = 'X' then
    !(currentSymbol == '-')
  else
    currentSymbol == 'x' || currentSymbol == 'X' || currentSymbol == '-'

/-- State of the OverlayManager of main.ts together with the overlay elements
currently attached to the editor container (dom).  overlayElement,
abortController and popperInstance model the three nullable fields of the
class; a boolean stands for a non-null controller or popper instance. -/
structure OverlayManagerState where
  dom : List Nat
  overlayElement : Option Nat
  abortController : Bool
  popperInstance : Bool
deriving DecidableEq

namespace OverlayManagerState

/-- OverlayManager.remove: abort and null the controller, destroy and null the
popper instance, and detach and null the overlay element if one exists. -/
def remove (s : OverlayManagerState) : OverlayManagerState :=
  { dom := match s.overlayElement with
           | some i => s.dom.erase i
           | none => s.dom
    overlayElement := none
    abortController := false
    popperInstance := false }

/-- The body of OverlayManager.create after its initial remove call: build the
overlay element, append it to the editor container, and set up the popper
instance and the event listeners. -/
def attachOverlay (s : OverlayManagerState) (fresh : Nat) : OverlayManagerState :=
  { dom := s.dom ++ [fresh]
    overlayElement := some fresh
    abortController := true
    popperInstance := true }

/-- OverlayManager.create: its first statement is this.remove(), cleaning up
any existing overlay before the new one is attached. -/
def create (s : OverlayManagerState) (fresh : Nat) : OverlayManagerState :=
  (s.remove).attachOverlay fresh

end OverlayManagerState

/-- Resources owned by a CheckboxStyleWidget of main.ts, together with the
menu elements currently attached to the editor container (dom).  Each boolean
models a nullable field being non-null (a pending dismiss timer, a live abort
controller, a popper instance, a registered scroll-indicator cleanup). -/
structure WidgetResources where
  dom : List Nat
  menuElement : Option Nat
  menuTimeout : Bool
  abortController : Bool
  popperInstance : Bool
  scrollIndicators : Bool
deriving DecidableEq

namespace WidgetResources

/-- CheckboxStyleWidget.cleanup: clear the dismiss timer, abort and null the
controller, run and drop the scroll-indicator cleanup, destroy and null the
popper, and detach and null the menu element if one exists. -/
def cleanup (w : WidgetResources) : WidgetResources :=
  { dom := match w.menuElement with
           | some i => w.dom.erase i
           | none => w.dom
    menuElement := none
    menuTimeout := false
    abortController := false
    popperInstance := false
    scrollIndicators := false }

/-- CheckboxStyleWidget.destroy just calls cleanup. -/
def destroy (w : WidgetResources) : WidgetResources :=
  w.cleanup

end WidgetResources

/-- The checkboxWidgetState StateField value of main.ts: the current widget
reference, the set of constructed-but-not-destroyed widgets (each owning a
menu subtree), and the overlay manager. -/
structure WidgetFieldState where
  widget : Option Nat
  widgetsAlive : List Nat
  overlay : OverlayManagerState
deriving DecidableEq

/-- The two state effects processed by checkboxWidgetState. -/
inductive WidgetEffect where
  | showWidget (fresh : Nat)
  | hideWidget
deriving DecidableEq

/-- The update function of checkboxWidgetState on one effect (the plugin
instance is assumed present, as the field is initialized with it at editor
setup).  showWidgetEffect destroys any existing widget before constructing and
showing the new one; hideWidgetEffect destroys the widget and removes the
overlay. -/
def updateWidgetField (s : WidgetFieldState) (e : WidgetEffect) : WidgetFieldState :=
  match e with
  | .showWidget fresh =>
    { widget := some fresh
      widgetsAlive := fresh ::
        (match s.widget with
         | some w => s.widgetsAlive.erase w
         | none => s.widgetsAlive)
      overlay := s.overlay }
  | .hideWidget =>
    { widget := none
      widgetsAlive := match s.widget with
                      | some w => s.widgetsAlive.erase w
                      | none => s.widgetsAlive
      overlay := s.overlay.remove }

/-- The WidgetState record of the InteractionHandler of main.ts: whether a
long-press timeout is pending (timer not cleared and not yet fired), the last
pressed checkbox element, and the recorded touch origin (x, y, time). -/
structure InteractionState where
  timer : Bool
  lastTarget : Option Nat
  touchStart : Option (Int × Int × Nat)
deriving DecidableEq

/-- SCROLL_THRESHOLD of main.ts: pixels of movement before canceling a
long-press. -/
def SCROLL_THRESHOLD : Nat := 10

/-- handleTouchMove of the InteractionHandler: with a recorded touch origin
and a single-finger event, a displacement above the threshold on either axis
clears the timer and resets the candidate target and the touch origin. -/
def handleTouchMove (st : InteractionState) (numTouches : Nat) (x y : Int) :
    InteractionState :=
  match st.touchStart with
  | some (sx, sy, _) =>
    if numTouches = 1 then
      if SCROLL_THRESHOLD < (x - sx).natAbs ∨ SCROLL_THRESHOLD < (y - sy).natAbs then
        { timer := false, lastTarget := none, touchStart := none }
      else st
    else st
  | none => st

/-- handleMouseUp of the InteractionHandler: clear the pending timer and the
candidate target (the mouse path never sets a touch origin). -/
def handleMouseUp (st : InteractionState) : InteractionState :=
  { timer := false, lastTarget := none, touchStart := st.touchStart }

/-- handleTouchEnd of the InteractionHandler: clear the pending timer, the
candidate target and the touch origin. -/
def handleTouchEnd (_st : InteractionState) : InteractionState :=
  { timer := false, lastTarget := none, touchStart := none }

/-- What a long-press timeout firing may produce. -/
structure LongPressOutcome where
  menuOpened : Bool
  overlayCreated : Bool
deriving DecidableEq

/-- The long-press timeout callback of handleMouseDown and handleTouchStart
followed by handleLongPress: the callback runs only while the timeout is still
pending, it checks that the candidate target is still the pressed element, and
handleLongPress additionally validates the resolved document position and the
checkbox line before creating the overlay and showing the menu.  posValid and
lineIsCheckbox stand for those two host-editor checks. -/
def timerFire (st : InteractionState) (target : Nat) (posValid lineIsCheckbox : Bool) :
    LongPressOutcome :=
  if st.timer ∧ st.lastTarget = some target ∧ posValid ∧ lineIsCheckbox then
    ⟨true, true⟩
  else ⟨false, false⟩

/-- A persisted JavaScript value as the settings loader can meet it.  vobj
covers objects and arrays, whose string conversion has no leading digits in
the cases relevant here. -/
inductive JsVal where
  | vnum (n : Int)
  | vnan
  | vbool (b : Bool)
  | vstr (s : List Char)
  | vnull
  | vundefined
  | vobj
deriving DecidableEq

/-- Value of a maximal leading digit run; none when there is no digit. -/
def digitsVal (l : List Char) : Option Nat :=
  match l.takeWhile isDigitChar with
  | [] => none
  | ds => some (ds.foldl (fun acc c => acc * 10 + (c.toNat - 48)) 0)

/-- parseInt on a string: skip leading whitespace, read an optional sign and
then a maximal decimal digit run; NaN (none) when no digit follows.  The
automatic hexadecimal mode on a 0x prefix is not modelled (such a string still
parses as a number here, and only its numeric value differs). -/
def parseIntFrom (l : List Char) : Option Int :=
  match l.dropWhile isJsWs with
  | '-' :: rest => (digitsVal rest).map (fun n => -(n : Int))
  | '+' :: rest => (digitsVal rest).map (fun n => (n : Int))
  | l1 => (digitsVal l1).map (fun n => (n : Int))

/-- parseInt applied to a non-string value goes through string conversion:
booleans, null, undefined and plain objects all convert to strings without a
leading digit, hence NaN. -/
def jsParseInt : JsVal → Option Int
  | .vstr s => parseIntFrom s
  | .vnum n => some n
  | _ => none

/-- The num line of validateDuration: take the value when it is a number
(NaN included, as none), else parseInt it. -/
def durationNum (value : JsVal) : Option Int :=
  match value with
  | .vnum n => some n
  | .vnan => none
  | v => jsParseInt v

/-- validateDuration of main.ts: return num when it is not NaN and lies in
the range, else the default. -/
def validateDuration (value : JsVal) (vmin vmax dflt : Int) : Int :=
  match durationNum value with
  | some n => if vmin ≤ n ∧ n ≤ vmax then n else dflt
  | none => dflt

/-- One entry of the CHECKBOX_STYLES catalog of main.ts. -/
structure CheckboxStyle where
  symbol : Char
  description : String
deriving DecidableEq

/-- The 22-entry master style catalog of main.ts. -/
def CHECKBOX_STYLES : List CheckboxStyle := [
  ⟨' ', "To-do"⟩, ⟨'/', "Incomplete"⟩, ⟨'x', "Done"⟩, ⟨'-', "Cancelled"⟩,
  ⟨'>', "Forwarded"⟩, ⟨'<', "Scheduling"⟩,
  ⟨'?', "Question"⟩, ⟨'!', "Important"⟩, ⟨'*', "Star"⟩, ⟨'"', "Quote"⟩,
  ⟨'l', "Location"⟩, ⟨'b', "Bookmark"⟩, ⟨'i', "Information"⟩, ⟨'S', "Savings"⟩,
  ⟨'I', "Idea"⟩, ⟨'p', "Pro"⟩, ⟨'c', "Con"⟩, ⟨'f', "Fire"⟩, ⟨'k', "Key"⟩,
  ⟨'w', "Win"⟩, ⟨'u', "Up"⟩, ⟨'d', "Down"⟩]

/-- The default enablement of DEFAULT_SETTINGS.styles: the four basic states
are on, everything else off. -/
def defaultStyleEnabled (c : Char) : Bool :=
  c == ' ' || c == '/' || c == 'x' || c == '-'

/-- DEFAULT_SETTINGS.styles as an association list over the catalog. -/
def DEFAULT_STYLES : List (Char × Bool) :=
  CHECKBOX_STYLES.map (fun s => (s.symbol, defaultStyleEnabled s.symbol))

/-- validateStylesObject of main.ts.  The argument is none when the persisted
styles value is missing, null, or not an object (the falsiness and typeof
guards), and some association list of its properties otherwise.  For each of
the 22 catalog symbols the validated map takes the persisted value when it is
a boolean and the catalog default otherwise; unknown keys are dropped. -/
def validateStylesObject (styles : Option (List (Char × JsVal))) :
    List (Char × Bool) :=
  match styles with
  | none => DEFAULT_STYLES
  | some entries =>
    CHECKBOX_STYLES.map (fun st =>
      (st.symbol,
        match entries.lookup st.symbol with
        | some (.vbool b) => b
        | _ => defaultStyleEnabled st.symbol))

/-- The persisted data as loadSettings reads it: the styles property (none for
every non-object case), and the raw values of the three scalar settings, each
vundefined when the whole data object or the property is missing. -/
structure RawData where
  styles : Option (List (Char × JsVal))
  longPressDuration : JsVal
  touchLongPressDuration : JsVal
  enableHapticFeedback : JsVal

/-- The settings produced by loadSettings.  The haptic flag keeps its
JavaScript value: the nullish coalescing of the source replaces only null and
undefined by true and stores any other persisted value as is. -/
structure LoadedSettings where
  styles : List (Char × Bool)
  longPressDuration : Int
  touchLongPressDuration : Int
  enableHapticFeedback : JsVal

/-- loadSettings of main.ts over the persisted data. -/
def loadSettings (data : RawData) : LoadedSettings :=
  { styles := validateStylesObject data.styles
    longPressDuration := validateDuration data.longPressDuration 100 1000 350
    touchLongPressDuration := validateDuration data.touchLongPressDuration 200 1500 500
    enableHapticFeedback :=
      match data.enableHapticFeedback with
      | .vnull => .vbool true
      | .vundefined => .vbool true
      | v => v }

end CheckboxStyleMenu

namespace CheckboxStyleMenu

/-! Helper facts about the character classes. -/

lemma digit_not_jsWs {c : Char} (hd : isDigitChar c = true) : isJsWs c = false := by
  simp only [isDigitChar, Bool.and_eq_true, decide_eq_true_eq] at hd
  rw [Bool.eq_false_iff]
  intro h
  simp only [isJsWs, Bool.or_eq_true, Bool.and_eq_true, decide_eq_true_eq] at h
  omega

lemma jsWs_not_dash {c : Char} (h : isJsWs c = true) : ¬ c = '-' := by
  intro he
  subst he
  exact absurd h (by decide)

lemma jsWs_not_digit {c : Char} (h : isJsWs c = true) : ¬ isDigitChar c = true := by
  intro hd
  rw [digit_not_jsWs hd] at h
  exact Bool.noConfusion h

lemma digit_ne_dash {c : Char} (hd : isDigitChar c = true) : ¬ c = '-' := by
  intro he
  subst he
  exact absurd hd (by decide)

/-- C2: the compatibility decision is the pure function shouldUseClickForToggle
of (currentSymbol, targetSymbol, compatibilityEnabled); with compatibility
enabled it follows the decision table of the spec: space to x uses a click,
dash to x uses a text change, x to space uses a click, bang to space uses a
text change, and x to x dispatches no click. -/
theorem claim_c2_compatibility_decision_table :
    shouldUseClickForToggle ' ' 'x' true = true ∧
    shouldUseClickForToggle '-' 'x' true = false ∧
    shouldUseClickForToggle 'x' ' ' true = true ∧
    shouldUseClickForToggle '!' ' ' true = false ∧
    shouldUseClickForToggle 'x' 'x' true = false := by
  decide

/-- C10: with Tasks compatibility disabled, shouldUseClickForToggle returns
false for every pair of symbols, so the direct text edit is always chosen and
no simulated native click is ever dispatched. -/
theorem claim_c10_disabled_always_text_change (currentSymbol targetSymbol : Char) :
    shouldUseClickForToggle currentSymbol targetSymbol false = false := by
  simp [shouldUseClickForToggle]

theorem claim_c10_witness :
    shouldUseClickForToggle '!' 'x' false = false :=
  claim_c10_disabled_always_text_change '!' 'x'

/-- C7: for touch input, a single-finger move whose displacement from the
recorded origin exceeds the 10-pixel scroll threshold on either axis cancels
the pending gesture: the timer is cleared, the candidate target and the touch
origin are reset, and a later firing of the long-press timeout opens no menu
and creates no overlay. -/
theorem claim_c7_touch_move_cancels_gesture
    (st : InteractionState) (sx sy : Int) (tm : Nat) (x y : Int) (target : Nat)
    (posValid lineIsCheckbox : Bool)
    (hts : st.touchStart = some (sx, sy, tm))
    (hmove : SCROLL_THRESHOLD < (x - sx).natAbs ∨ SCROLL_THRESHOLD < (y - sy).natAbs) :
    handleTouchMove st 1 x y = ⟨false, none, none⟩ ∧
    timerFire (handleTouchMove st 1 x y) target posValid lineIsCheckbox = ⟨false, false⟩ := by
  have h1 : handleTouchMove st 1 x y = ⟨false, none, none⟩ := by
    obtain ⟨tmr, lt, ts⟩ := st
    simp only at hts
    subst hts
    simp only [handleTouchMove, if_pos rfl]
    rw [if_pos hmove]
    simp
  refine ⟨h1, ?_⟩
  rw [h1]
  simp [timerFire]

theorem claim_c7_witness :
    handleTouchMove ⟨true, some 1, some (0, 0, 0)⟩ 1 20 0 = ⟨false, none, none⟩ ∧
    timerFire (handleTouchMove ⟨true, some 1, some (0, 0, 0)⟩ 1 20 0) 1 true true
      = ⟨false, false⟩ :=
  claim_c7_touch_move_cancels_gesture ⟨true, some 1, some (0, 0, 0)⟩ 0 0 0 20 0 1
    true true rfl (Or.inl (by decide))

/-- C8: releasing a press before the long-press timeout fires (handleMouseUp
or handleTouchEnd) cancels the pending timer and clears the candidate, so a
later firing of the timeout opens no menu and creates no overlay, and no
timer is left pending. -/
theorem claim_c8_early_release_cancels
    (st : InteractionState) (target : Nat) (posValid lineIsCheckbox : Bool) :
    (handleMouseUp st).timer = false ∧
    (handleMouseUp st).lastTarget = none ∧
    handleTouchEnd st = ⟨false, none, none⟩ ∧
    timerFire (handleMouseUp st) target posValid lineIsCheckbox = ⟨false, false⟩ ∧
    timerFire (handleTouchEnd st) target posValid lineIsCheckbox = ⟨false, false⟩ := by
  refine ⟨rfl, rfl, rfl, ?_, ?_⟩ <;> simp [timerFire, handleMouseUp, handleTouchEnd]

theorem claim_c8_witness :
    timerFire (handleMouseUp ⟨true, some 5, none⟩) 5 true true = ⟨false, false⟩ ∧
    timerFire (handleTouchEnd ⟨true, some 5, some (3, 4, 9)⟩) 5 true true = ⟨false, false⟩ :=
  ⟨(claim_c8_early_release_cancels ⟨true, some 5, none⟩ 5 true true).2.2.2.1,
   (claim_c8_early_release_cancels ⟨true, some 5, some (3, 4, 9)⟩ 5 true true).2.2.2.2⟩

/-- C5: under the representation invariant that the attached elements are
exactly the ones referenced by the manager and the state field, creating an
overlay first removes any prior one (create is remove followed by the attach
body) and leaves exactly one attached overlay, and processing a
showWidgetEffect destroys any existing widget before constructing the new
one, leaving exactly one live widget. -/
theorem claim_c5_at_most_one_overlay_and_session
    (s : OverlayManagerState) (f : Nat) (ws : WidgetFieldState) (g : Nat)
    (hs : s.dom = s.overlayElement.toList)
    (hw : ws.widgetsAlive = ws.widget.toList) :
    s.create f = (s.remove).attachOverlay f ∧
    (s.create f).dom = [f] ∧
    (s.create f).overlayElement = some f ∧
    (updateWidgetField ws (.showWidget g)).widgetsAlive = [g] ∧
    (updateWidgetField ws (.showWidget g)).widget = some g := by
  have h0 : (s.remove).dom = [] := by
    cases ho : s.overlayElement with
    | none =>
      rw [ho] at hs
      simp [OverlayManagerState.remove, ho, hs]
    | some i =>
      rw [ho] at hs
      simp [OverlayManagerState.remove, ho, hs]
  have h1 : (match ws.widget with
             | some w => ws.widgetsAlive.erase w
             | none => ws.widgetsAlive) = [] := by
    cases hwo : ws.widget with
    | none =>
      rw [hwo] at hw
      simpa using hw
    | some w =>
      rw [hwo] at hw
      simp [hw]
  refine ⟨rfl, ?_, rfl, ?_, rfl⟩
  · show ((s.remove).attachOverlay f).dom = [f]
    simp [OverlayManagerState.attachOverlay, h0]
  · simp [updateWidgetField, h1]

theorem claim_c5_witness :
    (OverlayManagerState.create ⟨[7], some 7, true, true⟩ 3).dom = [3] ∧
    (updateWidgetField ⟨some 9, [9], ⟨[], none, false, false⟩⟩ (.showWidget 4)).widgetsAlive
      = [4] :=
  ⟨(claim_c5_at_most_one_overlay_and_session ⟨[7], some 7, true, true⟩ 3
      ⟨some 9, [9], ⟨[], none, false, false⟩⟩ 4 rfl rfl).2.1,
   (claim_c5_at_most_one_overlay_and_session ⟨[7], some 7, true, true⟩ 3
      ⟨some 9, [9], ⟨[], none, false, false⟩⟩ 4 rfl rfl).2.2.2.1⟩

/-- C6: tearing a session down is idempotent: a second OverlayManager.remove
or CheckboxStyleWidget.cleanup is the identity on the already-torn-down
state, destroy is cleanup, and when no overlay or menu element exists the
calls detach nothing from the DOM. -/
theorem claim_c6_teardown_idempotent (s : OverlayManagerState) (w : WidgetResources) :
    (s.remove).remove = s.remove ∧
    (w.cleanup).cleanup = w.cleanup ∧
    w.destroy = w.cleanup ∧
    (s.overlayElement = none → (s.remove).dom = s.dom) ∧
    (w.menuElement = none → (w.cleanup).dom = w.dom) := by
  refine ⟨rfl, rfl, rfl, ?_, ?_⟩
  · intro h
    simp [OverlayManagerState.remove, h]
  · intro h
    simp [WidgetResources.cleanup, h]

theorem claim_c6_witness :
    (OverlayManagerState.remove (OverlayManagerState.remove ⟨[7], some 7, true, true⟩)
      = OverlayManagerState.remove ⟨[7], some 7, true, true⟩) ∧
    (WidgetResources.cleanup (WidgetResources.cleanup ⟨[3], some 3, true, true, true, true⟩)
      = WidgetResources.cleanup ⟨[3], some 3, true, true, true, true⟩) ∧
    (OverlayManagerState.remove ⟨[9], none, true, true⟩).dom = [9] :=
  ⟨(claim_c6_teardown_idempotent ⟨[7], some 7, true, true⟩
      ⟨[3], some 3, true, true, true, true⟩).1,
   (claim_c6_teardown_idempotent ⟨[7], some 7, true, true⟩
      ⟨[3], some 3, true, true, true, true⟩).2.1,
   (claim_c6_teardown_idempotent ⟨[9], none, true, true⟩
      ⟨[], none, false, false, false, false⟩).2.2.2.1 rfl⟩

end CheckboxStyleMenu

namespace CheckboxStyleMenu

/-! Helper lemmas for the settings loader. -/

lemma validateDuration_range (value : JsVal) (vmin vmax dflt : Int)
    (h1 : vmin ≤ dflt) (h2 : dflt ≤ vmax) :
    vmin ≤ validateDuration value vmin vmax dflt ∧
    validateDuration value vmin vmax dflt ≤ vmax := by
  cases h : durationNum value with
  | none =>
    simp only [validateDuration, h]
    exact ⟨h1, h2⟩
  | some n =>
    simp only [validateDuration, h]
    by_cases hr : vmin ≤ n ∧ n ≤ vmax
    · rw [if_pos hr]
      exact hr
    · rw [if_neg hr]
      exact ⟨h1, h2⟩

lemma lookup_styles_map (f : CheckboxStyle → Bool) (c : Char) :
    ∀ (l : List CheckboxStyle), c ∈ l.map CheckboxStyle.symbol →
      ∃ st, st.symbol = c ∧ st ∈ l ∧
        (l.map (fun s => (s.symbol, f s))).lookup c = some (f st) := by
  intro l
  induction l with
  | nil =>
    intro h
    simp at h
  | cons s rest ih =>
    intro h
    by_cases hc : c = s.symbol
    · have hb : (c == s.symbol) = true := beq_iff_eq.mpr hc
      refine ⟨s, hc.symm, by simp, ?_⟩
      simp [List.lookup, hb]
    · have hb : (c == s.symbol) = false := beq_eq_false_iff_ne.mpr hc
      have h' : c ∈ rest.map CheckboxStyle.symbol := by
        rcases (by simpa using h : c = s.symbol ∨ c ∈ rest.map CheckboxStyle.symbol) with h1 | h1
        · exact absurd h1 hc
        · exact h1
      obtain ⟨st, hsym, hmem, hlook⟩ := ih h'
      refine ⟨st, hsym, by simp [hmem], ?_⟩
      simpa [List.lookup, hb] using hlook

/-- C9 (amended): loading settings is total and always yields durations inside
the documented ranges — non-numeric and out-of-range persisted values are
replaced by the in-range defaults 350 and 500 rather than clamped to the
nearer bound — and a styles map over exactly the 22 catalog symbols that
falls back to the catalog default wherever the persisted flag is missing or
not a boolean. -/
theorem claim_c9_load_settings_validated (data : RawData) :
    100 ≤ (loadSettings data).longPressDuration ∧
    (loadSettings data).longPressDuration ≤ 1000 ∧
    200 ≤ (loadSettings data).touchLongPressDuration ∧
    (loadSettings data).touchLongPressDuration ≤ 1500 ∧
    (loadSettings data).styles.map Prod.fst = CHECKBOX_STYLES.map CheckboxStyle.symbol ∧
    (data.styles = none → (loadSettings data).styles = DEFAULT_STYLES) ∧
    (∀ entries, data.styles = some entries →
      ∀ c ∈ CHECKBOX_STYLES.map CheckboxStyle.symbol,
        (∀ b, entries.lookup c ≠ some (.vbool b)) →
        (loadSettings data).styles.lookup c = some (defaultStyleEnabled c)) := by
  obtain ⟨h1, h2⟩ :=
    validateDuration_range data.longPressDuration 100 1000 350 (by decide) (by decide)
  obtain ⟨h3, h4⟩ :=
    validateDuration_range data.touchLongPressDuration 200 1500 500 (by decide) (by decide)
  refine ⟨h1, h2, h3, h4, ?_, ?_, ?_⟩
  · show (validateStylesObject data.styles).map Prod.fst = _
    cases data.styles with
    | none => rfl
    | some entries =>
      simp only [validateStylesObject, List.map_map]
      rfl
  · intro h
    show validateStylesObject data.styles = DEFAULT_STYLES
    rw [h]
    rfl
  · intro entries he c hc hnb
    show (validateStylesObject data.styles).lookup c = _
    rw [he]
    obtain ⟨st, hsym, hmem, hlook⟩ := lookup_styles_map
      (fun st => match entries.lookup st.symbol with
                 | some (.vbool b) => b
                 | _ => defaultStyleEnabled st.symbol) c CHECKBOX_STYLES hc
    unfold validateStylesObject
    rw [hlook, hsym]
    cases hl : entries.lookup c with
    | none => rfl
    | some v =>
      cases v with
      | vbool b => exact absurd hl (hnb b)
      | vnum n => rfl
      | vnan => rfl
      | vstr s => rfl
      | vnull => rfl
      | vundefined => rfl
      | vobj => rfl

/-- C9 counterexample to the claim as stated: the out-of-range persisted value
5000 for longPressDuration is not clamped into the valid range (which would
give 1000); the loader replaces it by the default 350. -/
theorem claim_c9_counterexample :
    (loadSettings ⟨none, .vnum 5000, .vundefined, .vundefined⟩).longPressDuration = 350 ∧
    ¬ (loadSettings ⟨none, .vnum 5000, .vundefined, .vundefined⟩).longPressDuration
        = max 100 (min 1000 5000) := by
  decide

theorem claim_c9_witness :
    (100 ≤ (loadSettings ⟨some [('x', .vnum 3)], .vnum 5000, .vstr ("abc".toList),
        .vbool false⟩).longPressDuration ∧
      (loadSettings ⟨some [('x', .vnum 3)], .vnum 5000, .vstr ("abc".toList),
        .vbool false⟩).longPressDuration ≤ 1000) ∧
    (loadSettings ⟨some [('x', .vnum 3)], .vnum 5000, .vstr ("abc".toList),
        .vbool false⟩).styles.lookup 'x' = some (defaultStyleEnabled 'x') :=
  ⟨⟨(claim_c9_load_settings_validated _).1, (claim_c9_load_settings_validated _).2.1⟩,
   (claim_c9_load_settings_validated
      ⟨some [('x', .vnum 3)], .vnum 5000, .vstr ("abc".toList), .vbool false⟩).2.2.2.2.2.2
      [('x', .vnum 3)] rfl 'x' (by decide) (by decide)⟩

end CheckboxStyleMenu

namespace CheckboxStyleMenu

/-! Lemmas relating the regex matchers to the structural checkbox pattern. -/

lemma marker_head (m : List Char) (hm : IsListMarker m) :
    ∃ d m2, m = d :: m2 ∧ isJsWs d = false := by
  rcases hm with rfl | ⟨ds, hne, hds, rfl⟩
  · exact ⟨'-', [], rfl, by decide⟩
  · cases ds with
    | nil => exact absurd rfl hne
    | cons d ds2 =>
      exact ⟨d, ds2 ++ ['.'], by simp, digit_not_jsWs (hds d (by simp))⟩

lemma matchListMarker_marker (m r : List Char) (hm : IsListMarker m) :
    matchListMarker (m ++ r) = some (m.length, r) := by
  rcases hm with rfl | ⟨ds, hne, hds, rfl⟩
  · rfl
  · cases ds with
    | nil => exact absurd rfl hne
    | cons d ds2 =>
      have hd : isDigitChar d = true := hds d (by simp)
      have hall : ∀ a ∈ (d :: ds2), isDigitChar a = true := hds
      have e1 : (d :: ds2 ++ ['.']) ++ r = (d :: ds2) ++ '.' :: r := by simp
      have htake : ((d :: ds2) ++ '.' :: r).takeWhile isDigitChar = d :: ds2 := by
        rw [List.takeWhile_append_of_pos hall]
        simp [List.takeWhile_cons_of_neg (by decide : ¬ isDigitChar '.' = true)]
      have hdrop : ((d :: ds2) ++ '.' :: r).dropWhile isDigitChar = '.' :: r := by
        rw [List.dropWhile_append_of_pos hall]
        exact List.dropWhile_cons_of_neg (by decide : ¬ isDigitChar '.' = true)
      rw [e1]
      rw [show (d :: ds2) ++ '.' :: r = d :: (ds2 ++ '.' :: r) from by simp]
      simp only [matchListMarker]
      rw [if_neg (digit_ne_dash hd), if_pos hd]
      rw [show d :: (ds2 ++ '.' :: r) = (d :: ds2) ++ '.' :: r from by simp] at *
      rw [htake, hdrop]
      simp

lemma dropWhile_ws_to_marker (w1 m r : List Char) (hw1 : ∀ a ∈ w1, isJsWs a = true)
    (hm : IsListMarker m) :
    (w1 ++ (m ++ r)).dropWhile isJsWs = m ++ r := by
  rw [List.dropWhile_append_of_pos hw1]
  obtain ⟨d, m2, rfl, hd⟩ := marker_head m hm
  rw [show (d :: m2) ++ r = d :: (m2 ++ r) from by simp]
  exact List.dropWhile_cons_of_neg (by simp [hd])

lemma dropWhile_ws_to_bracket (w2 x : List Char) (hw2 : ∀ a ∈ w2, isJsWs a = true) :
    (w2 ++ '[' :: x).dropWhile isJsWs = '[' :: x := by
  rw [List.dropWhile_append_of_pos hw2]
  exact List.dropWhile_cons_of_neg (by decide : ¬ isJsWs '[' = true)

lemma takeWhile_ws_to_bracket (w2 x : List Char) (hw2 : ∀ a ∈ w2, isJsWs a = true) :
    (w2 ++ '[' :: x).takeWhile isJsWs = w2 := by
  rw [List.takeWhile_append_of_pos hw2]
  simp [List.takeWhile_cons_of_neg (by decide : ¬ isJsWs '[' = true)]

lemma isCheckboxLine_of_shape {line w1 m w2 : List Char} {c : Char} {t : List Char}
    (h : CheckboxShape line w1 m w2 c t) : isCheckboxLine line = true := by
  obtain ⟨hline, hw1, hm, hw2, hc, ht⟩ := h
  subst hline
  simp only [List.append_assoc]
  simp only [isCheckboxLine,
    dropWhile_ws_to_marker w1 m (w2 ++ '[' :: c :: ']' :: t) hw1 hm,
    matchListMarker_marker m (w2 ++ '[' :: c :: ']' :: t) hm,
    dropWhile_ws_to_bracket w2 (c :: ']' :: t) hw2]
  rw [hc]
  simp only [Bool.not_false, Bool.true_and]
  rw [List.all_eq_true]
  intro a ha
  simp [ht a ha]

lemma matchSymbolAt_ws_head {a : Char} (l : List Char) (ha : isJsWs a = true) :
    matchSymbolAt (a :: l) = none := by
  have h1 : matchListMarker (a :: l) = none := by
    simp only [matchListMarker]
    rw [if_neg (jsWs_not_dash ha), if_neg (jsWs_not_digit ha)]
  simp [matchSymbolAt, h1]

lemma matchSymbolAt_shape (m w2 : List Char) (c : Char) (t : List Char)
    (hm : IsListMarker m) (hw2 : ∀ a ∈ w2, isJsWs a = true)
    (hc : isLineTermChar c = false) :
    matchSymbolAt (m ++ (w2 ++ '[' :: c :: ']' :: t)) = some (m.length + w2.length + 1) := by
  simp only [matchSymbolAt,
    matchListMarker_marker m (w2 ++ '[' :: c :: ']' :: t) hm,
    dropWhile_ws_to_bracket w2 (c :: ']' :: t) hw2,
    takeWhile_ws_to_bracket w2 (c :: ']' :: t) hw2]
  rw [hc]
  simp

lemma searchSymbolIndex_head_match {l : List Char} {v : Nat} (hne : l ≠ [])
    (hm : matchSymbolAt l = some v) : searchSymbolIndex l = some v := by
  cases l with
  | nil => exact absurd rfl hne
  | cons a rest => simp [searchSymbolIndex, hm]

lemma searchSymbolIndex_ws_append (w l : List Char) (hw : ∀ a ∈ w, isJsWs a = true) :
    searchSymbolIndex (w ++ l) = (searchSymbolIndex l).map (· + w.length) := by
  induction w with
  | nil =>
    cases h : searchSymbolIndex l <;> simp [h]
  | cons a w ih =>
    have ha := hw a (by simp)
    have hw2 : ∀ b ∈ w, isJsWs b = true := fun b hb => hw b (by simp [hb])
    rw [List.cons_append]
    simp only [searchSymbolIndex, matchSymbolAt_ws_head _ ha, ih hw2]
    cases h : searchSymbolIndex l <;> simp [h, Nat.add_assoc]

lemma searchSymbolIndex_of_shape {w1 m w2 : List Char} {c : Char} {t : List Char}
    (hw1 : ∀ a ∈ w1, isJsWs a = true) (hm : IsListMarker m)
    (hw2 : ∀ a ∈ w2, isJsWs a = true) (hc : isLineTermChar c = false) :
    searchSymbolIndex (w1 ++ m ++ w2 ++ '[' :: c :: ']' :: t)
      = some (w1.length + m.length + w2.length + 1) := by
  simp only [List.append_assoc]
  rw [searchSymbolIndex_ws_append w1 (m ++ (w2 ++ '[' :: c :: ']' :: t)) hw1]
  have hne : m ++ (w2 ++ '[' :: c :: ']' :: t) ≠ [] := by
    obtain ⟨d, m2, rfl, _⟩ := marker_head m hm
    simp
  rw [searchSymbolIndex_head_match hne (matchSymbolAt_shape m w2 c t hm hw2 hc)]
  simp
  omega

lemma applyCheckboxStyle_shape {line w1 m w2 : List Char} {c : Char} {t : List Char}
    (lf : Nat) (sym : Char) (h : CheckboxShape line w1 m w2 c t) :
    applyCheckboxStyle lf line sym =
      some ⟨lf + (w1.length + m.length + w2.length + 1),
            lf + (w1.length + m.length + w2.length + 1) + 1, sym⟩ ∧
    replaceInLine line lf
        ⟨lf + (w1.length + m.length + w2.length + 1),
         lf + (w1.length + m.length + w2.length + 1) + 1, sym⟩ =
      w1 ++ m ++ w2 ++ '[' :: sym :: ']' :: t := by
  have hcl : isCheckboxLine line = true := isCheckboxLine_of_shape h
  obtain ⟨hline, hw1, hm, hw2, hc, ht⟩ := h
  have hsi : searchSymbolIndex line = some (w1.length + m.length + w2.length + 1) := by
    rw [hline]
    exact searchSymbolIndex_of_shape hw1 hm hw2 hc
  constructor
  · simp [applyCheckboxStyle, hcl, hsi]
  · subst hline
    show (w1 ++ m ++ w2 ++ '[' :: c :: ']' :: t).take
          (lf + (w1.length + m.length + w2.length + 1) - lf) ++
        sym :: (w1 ++ m ++ w2 ++ '[' :: c :: ']' :: t).drop
          (lf + (w1.length + m.length + w2.length + 1) + 1 - lf) =
        w1 ++ m ++ w2 ++ '[' :: sym :: ']' :: t
    have hf : lf + (w1.length + m.length + w2.length + 1) - lf
        = w1.length + m.length + w2.length + 1 := by omega
    have hg : lf + (w1.length + m.length + w2.length + 1) + 1 - lf
        = w1.length + m.length + w2.length + 1 + 1 := by omega
    rw [hf, hg]
    have e1 : w1 ++ m ++ w2 ++ '[' :: c :: ']' :: t
        = (w1 ++ (m ++ (w2 ++ ['[']))) ++ (c :: ']' :: t) := by simp
    have e2 : w1 ++ m ++ w2 ++ '[' :: c :: ']' :: t
        = (w1 ++ (m ++ (w2 ++ ['[', c]))) ++ (']' :: t) := by simp
    have h1 : (w1 ++ m ++ w2 ++ '[' :: c :: ']' :: t).take
        (w1.length + m.length + w2.length + 1) = w1 ++ (m ++ (w2 ++ ['['])) := by
      rw [e1]
      exact List.take_left' (by simp [List.length_append]; omega)
    have h2 : (w1 ++ m ++ w2 ++ '[' :: c :: ']' :: t).drop
        (w1.length + m.length + w2.length + 1 + 1) = ']' :: t := by
      rw [e2]
      exact List.drop_left' (by simp [List.length_append]; omega)
    rw [h1, h2]
    simp

end CheckboxStyleMenu

namespace CheckboxStyleMenu

lemma matchListMarker_some_inv {r : List Char} {k : Nat} {r1 : List Char}
    (h : matchListMarker r = some (k, r1)) :
    ∃ m, IsListMarker m ∧ r = m ++ r1 ∧ m.length = k := by
  cases r with
  | nil => simp [matchListMarker] at h
  | cons a rest =>
    simp only [matchListMarker] at h
    split at h
    · rename_i ha
      rw [Option.some.injEq, Prod.mk.injEq] at h
      obtain ⟨hk, hr⟩ := h
      exact ⟨['-'], Or.inl rfl, by rw [ha, ← hr]; rfl, by rw [← hk]; rfl⟩
    · rename_i ha
      split at h
      · rename_i hd
        split at h
        · rename_i r2 heq
          rw [Option.some.injEq, Prod.mk.injEq] at h
          obtain ⟨hk, hr⟩ := h
          have hds : (a :: rest).takeWhile isDigitChar = a :: rest.takeWhile isDigitChar :=
            List.takeWhile_cons_of_pos hd
          refine ⟨(a :: rest).takeWhile isDigitChar ++ ['.'],
            Or.inr ⟨(a :: rest).takeWhile isDigitChar, by rw [hds]; simp,
              fun x hx => List.mem_takeWhile_imp hx, rfl⟩, ?_, ?_⟩
          · conv_lhs => rw [← List.takeWhile_append_dropWhile (p := isDigitChar)
              (l := a :: rest), heq]
            rw [← hr]
            simp
          · simp [← hk]
        · simp at h
      · simp at h

lemma shape_of_isCheckboxLine {line : List Char} (h : isCheckboxLine line = true) :
    MatchesCheckboxPattern line := by
  simp only [isCheckboxLine] at h
  split at h
  · simp at h
  · rename_i k r1 heq
    split at h
    · rename_i c t heq2
      rw [Bool.and_eq_true] at h
      obtain ⟨hc, hall⟩ := h
      obtain ⟨m, hm, hmr, _⟩ := matchListMarker_some_inv heq
      have hr1 : r1 = r1.takeWhile isJsWs ++ '[' :: c :: ']' :: t := by
        conv_lhs => rw [← List.takeWhile_append_dropWhile (p := isJsWs) (l := r1), heq2]
      refine ⟨line.takeWhile isJsWs, m, r1.takeWhile isJsWs, c, t, ?_,
        fun x hx => List.mem_takeWhile_imp hx, hm,
        fun x hx => List.mem_takeWhile_imp hx, by simpa using hc, ?_⟩
      · conv_lhs => rw [← List.takeWhile_append_dropWhile (p := isJsWs) (l := line),
          hmr, hr1]
        simp
      · intro x hx
        have hx2 := List.all_eq_true.mp hall x hx
        simpa using hx2
    · simp at h

/-- C1: on a line matching the checkbox pattern (decomposed as leading
whitespace w1, list marker m, whitespace w2, the bracketed status character c
and tail t) and a target symbol different from c, applyCheckboxStyle
dispatches exactly one single-character replacement whose range starts at the
offset of the character between the brackets immediately following the list
marker, and applying that replacement changes that character to the target
and leaves every other character of the line unchanged. -/
theorem claim_c1_single_char_replacement (lf : Nat) (line w1 m w2 : List Char)
    (c : Char) (t : List Char) (sym : Char)
    (h : CheckboxShape line w1 m w2 c t) (_hdiff : sym ≠ c) :
    applyCheckboxStyle lf line sym =
      some ⟨lf + (w1.length + m.length + w2.length + 1),
            lf + (w1.length + m.length + w2.length + 1) + 1, sym⟩ ∧
    replaceInLine line lf
        ⟨lf + (w1.length + m.length + w2.length + 1),
         lf + (w1.length + m.length + w2.length + 1) + 1, sym⟩ =
      w1 ++ m ++ w2 ++ '[' :: sym :: ']' :: t :=
  applyCheckboxStyle_shape lf sym h

theorem claim_c1_witness :
    (applyCheckboxStyle 0 ("- [ ] Buy milk".toList) 'x' = some ⟨3, 4, 'x'⟩ ∧
      replaceInLine ("- [ ] Buy milk".toList) 0 ⟨3, 4, 'x'⟩
        = "- [x] Buy milk".toList) ∧
    (applyCheckboxStyle 0 ("  - [!] Call mom".toList) ' ' = some ⟨5, 6, ' '⟩ ∧
      replaceInLine ("  - [!] Call mom".toList) 0 ⟨5, 6, ' '⟩
        = "  - [ ] Call mom".toList) :=
  ⟨claim_c1_single_char_replacement 0 ("- [ ] Buy milk".toList)
      [] ['-'] [' '] ' ' (" Buy milk".toList) 'x'
      ⟨by decide, by decide, Or.inl rfl, by decide, by decide, by decide⟩ (by decide),
   claim_c1_single_char_replacement 0 ("  - [!] Call mom".toList)
      [' ', ' '] ['-'] [' '] '!' (" Call mom".toList) ' '
      ⟨by decide, by decide, Or.inl rfl, by decide, by decide, by decide⟩ (by decide)⟩

/-- C3 counterexample to the claim as stated: selecting the symbol the line
already has is not a zero-mutation no-op; handleStyleSelection still
dispatches a one-character replacement (writing the same character), since
applyCheckboxStyle contains no equality short-circuit. -/
theorem claim_c3_counterexample :
    (handleStyleSelection 0 ("- [x] Buy milk".toList) 'x').edit ≠ none ∧
    (handleStyleSelection 0 ("- [x] Buy milk".toList) 'x').edit
      = some ⟨3, 4, 'x'⟩ := by
  decide

/-- C3 (amended): selecting a style whose symbol equals the line's current
status symbol still dispatches a single-character replacement, but the
replacement writes the same character back, so the text of the line is
unchanged, and the menu still closes. -/
theorem claim_c3_same_symbol_text_unchanged (lf : Nat) (line w1 m w2 : List Char)
    (c : Char) (t : List Char) (h : CheckboxShape line w1 m w2 c t) :
    ∃ e, (handleStyleSelection lf line c).edit = some e ∧
      replaceInLine line lf e = line ∧
      (handleStyleSelection lf line c).menuClosed = true := by
  have hline := h.1
  obtain ⟨happ, hrepl⟩ := applyCheckboxStyle_shape lf c h
  exact ⟨_, happ, by rw [hrepl, ← hline], rfl⟩

theorem claim_c3_witness :
    ∃ e, (handleStyleSelection 0 ("- [x] Done task".toList) 'x').edit = some e ∧
      replaceInLine ("- [x] Done task".toList) 0 e
        = "- [x] Done task".toList ∧
      (handleStyleSelection 0 ("- [x] Done task".toList) 'x').menuClosed = true :=
  claim_c3_same_symbol_text_unchanged 0 ("- [x] Done task".toList)
    [] ['-'] [' '] 'x' (" Done task".toList)
    ⟨by decide, by decide, Or.inl rfl, by decide, by decide, by decide⟩

/-- C4: on a line that does not match the checkbox pattern (optional leading
whitespace, a list marker, an opening bracket, one status character, a closing
bracket), applyCheckboxStyle aborts and dispatches no replacement at all. -/
theorem claim_c4_nonmatching_line_aborts (lf : Nat) (line : List Char) (sym : Char)
    (h : ¬ MatchesCheckboxPattern line) :
    applyCheckboxStyle lf line sym = none := by
  cases hcl : isCheckboxLine line with
  | false => simp [applyCheckboxStyle, hcl]
  | true => exact absurd (shape_of_isCheckboxLine hcl) h

theorem claim_c4_witness :
    ¬ MatchesCheckboxPattern ("plain text line".toList) ∧
    applyCheckboxStyle 0 ("plain text line".toList) 'x' = none := by
  have hnp : ¬ MatchesCheckboxPattern ("plain text line".toList) := by
    intro hp
    obtain ⟨w1, m, w2, c, t, hsh⟩ := hp
    exact absurd (isCheckboxLine_of_shape hsh) (by decide)
  exact ⟨hnp, claim_c4_nonmatching_line_aborts 0 ("plain text line".toList) 'x' hnp⟩

end CheckboxStyleMenu
